import Mathlib

/-!
# gemm-bench: the matrix-multiply measurement routine and the CLI front end

A shallow embedding of `src/matmul.cc` (`MatMul::performance_measuring`),
`src/main.cc` (`main`) and the constants of `src/utils.h`.

Modelling conventions.

* The accelerator library is an external collaborator.  Every call the program
  makes across that boundary is recorded, in program order, as an `Event`; the
  library answers through an `Accel` oracle (`status` says whether the call
  issued at a given position of the trace succeeds, `elapsed` is the value
  `cudaEventElapsedTime` writes in a given loop iteration).
* `exit(code)` ends the process: a `Proc` computation either continues with a
  value or stops with an exit code, and keeps the trace in both cases.
* `int` is a 32-bit two's-complement integer, `size_t` a 64-bit unsigned one.
* `double` and `float` values are modelled by exact rationals: rounding,
  infinities and NaN are outside the model.
* The contents of the host and device buffers are not tracked (the `rand()`
  fill of lines 49-65 of `matmul.cc` touches host memory only).
* The body of `performance_measuring` is cut, in source order, into the phases
  `allocate`, `switchTransA`, `switchTransB`, `selectAlgo` and `measure`; each
  names the source lines it stands for.
* `simulator.h` is not among the sources: `OpConfig`, `OpType` and the two
  `Simulator` methods `main` calls follow the specification.
-/

namespace GemmBench

/-! ## `utils.h` -/

abbrev DTYPE_FLOAT : Int := 0
abbrev DTYPE_HALF : Int := 1
abbrev DTYPE_DOUBLE : Int := 2
abbrev DTYPE_INT8 : Int := 3

/-- The value of `EXIT_FAILURE` from `<cstdlib>`. -/
abbrev EXIT_FAILURE : Int := 1

/-! ## Configuration model -/

/-- Modelled from the spec: the operator kinds of `simulator.h` (absent from the
sources); `main.cc` names `OpType::MATMUL` and `OpType::CONV2D`. -/
inductive OpType where
  | CONV2D
  | MATMUL
deriving DecidableEq, Repr

/-- Modelled from the spec: the `OpConfig` record of `simulator.h` (absent from
the sources): a kind and an ordered sequence of signed integers, used by
`main.cc` and `matmul.cc` through the fields `opType` and `args`. -/
structure OpConfig where
  opType : OpType
  args : List Int
deriving DecidableEq, Repr

/-! ## The accelerator boundary -/

inductive cublasOperation_t where
  | CUBLAS_OP_N
  | CUBLAS_OP_T
deriving DecidableEq, Repr

inductive cudaDataType where
  | CUDA_R_32F
  | CUDA_R_16F
deriving DecidableEq, Repr

inductive cublasGemmAlgo_t where
  | CUBLAS_GEMM_DEFAULT
  | CUBLAS_GEMM_ALGO0 | CUBLAS_GEMM_ALGO1 | CUBLAS_GEMM_ALGO2 | CUBLAS_GEMM_ALGO3
  | CUBLAS_GEMM_ALGO4 | CUBLAS_GEMM_ALGO5 | CUBLAS_GEMM_ALGO6 | CUBLAS_GEMM_ALGO7
  | CUBLAS_GEMM_ALGO8 | CUBLAS_GEMM_ALGO9 | CUBLAS_GEMM_ALGO10 | CUBLAS_GEMM_ALGO11
  | CUBLAS_GEMM_ALGO12 | CUBLAS_GEMM_ALGO13 | CUBLAS_GEMM_ALGO14 | CUBLAS_GEMM_ALGO15
  | CUBLAS_GEMM_ALGO16 | CUBLAS_GEMM_ALGO17 | CUBLAS_GEMM_ALGO18 | CUBLAS_GEMM_ALGO19
  | CUBLAS_GEMM_ALGO20 | CUBLAS_GEMM_ALGO21 | CUBLAS_GEMM_ALGO22 | CUBLAS_GEMM_ALGO23
  | CUBLAS_GEMM_DEFAULT_TENSOR_OP
  | CUBLAS_GEMM_ALGO0_TENSOR_OP | CUBLAS_GEMM_ALGO1_TENSOR_OP
  | CUBLAS_GEMM_ALGO2_TENSOR_OP | CUBLAS_GEMM_ALGO3_TENSOR_OP
  | CUBLAS_GEMM_ALGO4_TENSOR_OP | CUBLAS_GEMM_ALGO5_TENSOR_OP
  | CUBLAS_GEMM_ALGO6_TENSOR_OP | CUBLAS_GEMM_ALGO7_TENSOR_OP
  | CUBLAS_GEMM_ALGO8_TENSOR_OP | CUBLAS_GEMM_ALGO9_TENSOR_OP
  | CUBLAS_GEMM_ALGO10_TENSOR_OP | CUBLAS_GEMM_ALGO11_TENSOR_OP
  | CUBLAS_GEMM_ALGO12_TENSOR_OP | CUBLAS_GEMM_ALGO13_TENSOR_OP
  | CUBLAS_GEMM_ALGO14_TENSOR_OP | CUBLAS_GEMM_ALGO15_TENSOR_OP
deriving DecidableEq, Repr

/-- The arguments of one `cublasGemmEx` call that the program chooses
(the handle, the scalars and the device pointers are left out). -/
structure GemmCall where
  transa : cublasOperation_t
  transb : cublasOperation_t
  m : Int
  n : Int
  k : Int
  Atype : cudaDataType
  lda : Int
  Btype : cudaDataType
  ldb : Int
  Ctype : cudaDataType
  ldc : Int
  computeType : cudaDataType
  algo : cublasGemmAlgo_t
deriving DecidableEq, Repr

/-- One call across the boundary of `MatMul::performance_measuring`: to the
accelerator library, to the host allocator, or back to the harness. -/
inductive Event where
  | cublasCreate
  | cudaMalloc (bytes : Nat)
  | malloc (bytes : Nat)
  | cudaMemcpy (bytes : Nat)
  | cudaEventCreate
  | cudaEventRecord
  | cublasGemmEx (call : GemmCall)
  | cudaEventSynchronize
  | cudaEventElapsedTime
  | cudaFree
  | free
  | cublasDestroy
  | updatePfMap (config : OpConfig) (avg_time : ℚ) (tflops : ℚ)
deriving DecidableEq

def Event.isGemm : Event → Bool
  | .cublasGemmEx _ => true
  | _ => false

def Event.isUpdate : Event → Bool
  | .updatePfMap _ _ _ => true
  | _ => false

/-- The answers of the accelerator library. -/
structure Accel where
  /-- Whether the call issued when the trace has the given length succeeds. -/
  status : Nat → Bool
  /-- The milliseconds `cudaEventElapsedTime` reports in loop iteration `i`. -/
  elapsed : Nat → ℚ

/-! ## Processes that may call `exit` -/

inductive Res (α : Type) where
  | ok (a : α) (tr : List Event)
  | exit (code : Int) (tr : List Event)

def Res.trace {α : Type} : Res α → List Event
  | .ok _ tr => tr
  | .exit _ tr => tr

/-- The exit code when the process was ended by `exit`. -/
def Res.code {α : Type} : Res α → Option Int
  | .ok _ _ => none
  | .exit c _ => some c

def Proc (α : Type) : Type := List Event → Res α

def Proc.pure {α : Type} (a : α) : Proc α := fun tr => .ok a tr

def Proc.bind {α β : Type} (m : Proc α) (f : α → Proc β) : Proc β := fun tr =>
  match m tr with
  | .ok a tr1 => f a tr1
  | .exit c tr1 => .exit c tr1

instance : Monad Proc where
  pure := Proc.pure
  bind := Proc.bind

/-- The C library `exit`. -/
def exit {α : Type} (code : Int) : Proc α := fun tr => .exit code tr

/-- An unchecked call: its status is ignored. -/
def call (e : Event) : Proc Unit := fun tr => .ok () (tr ++ [e])

/-- The macro `CUDA_CALL(x)` of `utils.h`: evaluate `x`, and on a non-success
status print and `exit(EXIT_FAILURE)`. -/
def CUDA_CALL (env : Accel) (x : Event) : Proc Unit := fun tr =>
  if env.status tr.length then .ok () (tr ++ [x])
  else .exit EXIT_FAILURE (tr ++ [x])

/-- The macro `CUBLAS_CALL(x)` of `utils.h`: as `CUDA_CALL`, except that the
failure branch passes `x` to `printf` as well, so the call is issued a second
time before `exit(EXIT_FAILURE)`. -/
def CUBLAS_CALL (env : Accel) (x : Event) : Proc Unit := fun tr =>
  if env.status tr.length then .ok () (tr ++ [x])
  else .exit EXIT_FAILURE (tr ++ [x, x])

/-! ## Machine integers -/

/-- The value an `int` holds after an arithmetic result `x`: 32 bits, two's
complement wrap-around (C++ leaves signed overflow undefined; this is what the
usual targets compute). -/
def wrapInt32 (x : Int) : Int := (x + 2 ^ 31) % 2 ^ 32 - 2 ^ 31

/-- The product `count * dsize` of an `int` and a `size_t`: the `int` is
converted to `size_t` and the product is taken modulo `2 ^ 64`. -/
def sizeBytes (count : Int) (dsize : Nat) : Nat :=
  ((count % 2 ^ 64).toNat * dsize) % 2 ^ 64

/-- The value `sizeof(float)`. -/
abbrev sizeof_float : Nat := 4

/-- The value `sizeof(half)`. -/
abbrev sizeof_half : Nat := 2

/-! ## `matmul.cc` -/

/-- The first `switch (ALGO_ID)` of `matmul.cc` (lines 105-185), one row per
`case`; an id with no row takes the `default` branch. -/
def plainAlgo : List (Int × cublasGemmAlgo_t) :=
  [(-1, .CUBLAS_GEMM_DEFAULT),
   (0, .CUBLAS_GEMM_ALGO0), (1, .CUBLAS_GEMM_ALGO1), (2, .CUBLAS_GEMM_ALGO2),
   (3, .CUBLAS_GEMM_ALGO3), (4, .CUBLAS_GEMM_ALGO4), (5, .CUBLAS_GEMM_ALGO5),
   (6, .CUBLAS_GEMM_ALGO6), (7, .CUBLAS_GEMM_ALGO7), (8, .CUBLAS_GEMM_ALGO8),
   (9, .CUBLAS_GEMM_ALGO9), (10, .CUBLAS_GEMM_ALGO10), (11, .CUBLAS_GEMM_ALGO11),
   (12, .CUBLAS_GEMM_ALGO12), (13, .CUBLAS_GEMM_ALGO13), (14, .CUBLAS_GEMM_ALGO14),
   (15, .CUBLAS_GEMM_ALGO15), (16, .CUBLAS_GEMM_ALGO16), (17, .CUBLAS_GEMM_ALGO17),
   (18, .CUBLAS_GEMM_ALGO18), (19, .CUBLAS_GEMM_ALGO19), (20, .CUBLAS_GEMM_ALGO20),
   (21, .CUBLAS_GEMM_ALGO21), (22, .CUBLAS_GEMM_ALGO22), (23, .CUBLAS_GEMM_ALGO23)]

/-- The second `switch (ALGO_ID)` of `matmul.cc` (lines 189-245). -/
def tensorAlgo : List (Int × cublasGemmAlgo_t) :=
  [(-1, .CUBLAS_GEMM_DEFAULT_TENSOR_OP),
   (0, .CUBLAS_GEMM_ALGO0_TENSOR_OP), (1, .CUBLAS_GEMM_ALGO1_TENSOR_OP),
   (2, .CUBLAS_GEMM_ALGO2_TENSOR_OP), (3, .CUBLAS_GEMM_ALGO3_TENSOR_OP),
   (4, .CUBLAS_GEMM_ALGO4_TENSOR_OP), (5, .CUBLAS_GEMM_ALGO5_TENSOR_OP),
   (6, .CUBLAS_GEMM_ALGO6_TENSOR_OP), (7, .CUBLAS_GEMM_ALGO7_TENSOR_OP),
   (8, .CUBLAS_GEMM_ALGO8_TENSOR_OP), (9, .CUBLAS_GEMM_ALGO9_TENSOR_OP),
   (10, .CUBLAS_GEMM_ALGO10_TENSOR_OP), (11, .CUBLAS_GEMM_ALGO11_TENSOR_OP),
   (12, .CUBLAS_GEMM_ALGO12_TENSOR_OP), (13, .CUBLAS_GEMM_ALGO13_TENSOR_OP),
   (14, .CUBLAS_GEMM_ALGO14_TENSOR_OP), (15, .CUBLAS_GEMM_ALGO15_TENSOR_OP)]

/-- A `switch (ALGO_ID)` over a table of cases whose `default` branch is
`printf("Invalid algo id\n"); exit(1);`. -/
def switchAlgo (table : List (Int × cublasGemmAlgo_t)) (ALGO_ID : Int) :
    Proc cublasGemmAlgo_t :=
  match table.lookup ALGO_ID with
  | some algo => pure algo
  | none => exit 1

/-- Lines 36-70: the library handle, the three device buffers, the three host
buffers and the three host-to-device copies. -/
def allocate (env : Accel) (M N K dtype : Int) : Proc Unit := do
  let dsize : Nat := if dtype = DTYPE_HALF then sizeof_half else sizeof_float
  CUBLAS_CALL env .cublasCreate
  let max_size_a := wrapInt32 (M * K)
  let max_size_b := wrapInt32 (K * N)
  let max_size_c := wrapInt32 (M * N)
  CUDA_CALL env (.cudaMalloc (sizeBytes max_size_a dsize))
  CUDA_CALL env (.cudaMalloc (sizeBytes max_size_b dsize))
  CUDA_CALL env (.cudaMalloc (sizeBytes max_size_c dsize))
  call (.malloc (sizeBytes max_size_a dsize))
  call (.malloc (sizeBytes max_size_b dsize))
  call (.malloc (sizeBytes max_size_c dsize))
  CUDA_CALL env (.cudaMemcpy (sizeBytes max_size_a dsize))
  CUDA_CALL env (.cudaMemcpy (sizeBytes max_size_b dsize))
  CUDA_CALL env (.cudaMemcpy (sizeBytes max_size_c dsize))

/-- Lines 74-87, `switch (TRANSA)`: the operation and the leading dimension of
the left operand. -/
def switchTransA (TRANSA M K : Int) : Proc (cublasOperation_t × Int) :=
  if TRANSA = 0 then pure (.CUBLAS_OP_N, M)
  else if TRANSA = 1 then pure (.CUBLAS_OP_T, K)
  else exit 1

/-- Lines 88-100, `switch (TRANSB)`.  Its `case 1` assigns `CUBLAS_OP_T` and `N`
but has no `break`, so control runs on into `default`, which calls `exit(1)`. -/
def switchTransB (TRANSB K N : Int) : Proc (cublasOperation_t × Int) :=
  if TRANSB = 0 then pure (.CUBLAS_OP_N, K)
  else if TRANSB = 1 then do
    let _assigned := (cublasOperation_t.CUBLAS_OP_T, N)
    exit 1
  else exit 1

/-- Lines 102-246: the algorithm handle, from the table that `TENSOR_OP == 0`
selects. -/
def selectAlgo (TENSOR_OP ALGO_ID : Int) : Proc cublasGemmAlgo_t :=
  if TENSOR_OP = 0 then switchAlgo plainAlgo ALGO_ID
  else switchAlgo tensorAlgo ALGO_ID

/-- One pass through the body of the timed loop (lines 256-276), for the
iteration with index `i`; returns the new value of `avg_time`. -/
def loopBody (env : Accel) (dtype : Int) (f32 f16 : GemmCall) (i : Nat)
    (avg_time : ℚ) : Proc ℚ := do
  call .cudaEventRecord
  if dtype = DTYPE_FLOAT then
    CUBLAS_CALL env (.cublasGemmEx f32)
  else if dtype = DTYPE_HALF then
    CUBLAS_CALL env (.cublasGemmEx f16)
  CUDA_CALL env .cudaEventRecord
  CUDA_CALL env .cudaEventSynchronize
  CUDA_CALL env .cudaEventElapsedTime
  pure (avg_time + env.elapsed i)

/-- The loop `for (int i = 0; i < rounds; ++i)` with `todo` iterations left,
the next one having index `i`. -/
def timedLoop (env : Accel) (dtype : Int) (f32 f16 : GemmCall) :
    Nat → Nat → ℚ → Proc ℚ
  | 0, _, avg_time => pure avg_time
  | todo + 1, i, avg_time => do
    let avg_time ← loopBody env dtype f32 f16 i avg_time
    timedLoop env dtype f32 f16 todo (i + 1) avg_time

/-- The line `double tflops = (double)M * (double)N * (double)K * 2 / avg_time /
1000000000.0;` (line 288). -/
def tflopsOf (M N K : Int) (avg_time : ℚ) : ℚ :=
  (M : ℚ) * (N : ℚ) * (K : ℚ) * 2 / avg_time / 1000000000

/-- The arguments of the `cublasGemmEx` call of lines 259-262 (`ty` is
`CUDA_R_32F`) and of lines 266-269 (`ty` is `CUDA_R_16F`). -/
def gemmArgs (ty : cudaDataType) (transa transb : cublasOperation_t) (M N K lda ldb ldc : Int)
    (algo : cublasGemmAlgo_t) : GemmCall :=
  { transa := transa, transb := transb, m := M, n := N, k := K,
    Atype := ty, lda := lda, Btype := ty, ldb := ldb, Ctype := ty, ldc := ldc,
    computeType := ty, algo := algo }

/-- Lines 248-290: the two events, the timed loop, the average, the release of
the buffers and of the handle, and the report to the harness. -/
def measure (env : Accel) (config : OpConfig) (rounds : Int) (M N K dtype : Int)
    (transa transb : cublasOperation_t) (lda ldb ldc : Int) (algo : cublasGemmAlgo_t) :
    Proc Unit := do
  CUDA_CALL env .cudaEventCreate
  CUDA_CALL env .cudaEventCreate
  let avg_time ← timedLoop env dtype
    (gemmArgs .CUDA_R_32F transa transb M N K lda ldb ldc algo)
    (gemmArgs .CUDA_R_16F transa transb M N K lda ldb ldc algo) rounds.toNat 0 0
  let avg_time := avg_time / (rounds : ℚ)
  CUDA_CALL env .cudaFree
  CUDA_CALL env .cudaFree
  CUDA_CALL env .cudaFree
  call .free
  call .free
  call .free
  CUBLAS_CALL env .cublasDestroy
  let tflops := tflopsOf M N K avg_time
  call (.updatePfMap config avg_time tflops)

/-- The method `MatMul::performance_measuring(Simulator *simu, int rounds)`;
`config` is the operator's own configuration, and the call
`simu->updatePfMap(config, avg_time, tflops, {})` is the event `updatePfMap`.
The body is cut into the phases above, in source order. -/
def MatMul.performance_measuring (env : Accel) (config : OpConfig) (rounds : Int) :
    Proc Unit := do
  if config.args.length < 8 then
    exit 0
  let M := config.args.getD 0 0
  let N := config.args.getD 1 0
  let K := config.args.getD 2 0
  let TRANSA := config.args.getD 3 0
  let TRANSB := config.args.getD 4 0
  let TENSOR_OP := config.args.getD 5 0
  let ALGO_ID := config.args.getD 6 0
  let dtype := config.args.getD 7 0
  allocate env M N K dtype
  let ldc := M
  let (transa, lda) ← switchTransA TRANSA M K
  let (transb, ldb) ← switchTransB TRANSB K N
  let algo ← selectAlgo TENSOR_OP ALGO_ID
  measure env config rounds M N K dtype transa transb lda ldb ldc algo

/-- An accelerator on which every call succeeds and the timer reads `t i` in
iteration `i`. -/
def Accel.allOk (t : Nat → ℚ) : Accel := ⟨fun _ => true, t⟩

/-! ## `main.cc` -/

/-- How the process ends: `main` returns a code, `exit` is called, or an
exception nobody catches reaches `std::terminate` (which aborts). -/
inductive Ending where
  | returned (code : Int)
  | exited (code : Int)
  | terminated
deriving DecidableEq, Repr

/-- The three ways a call of `std::stoi` ends. -/
inductive StoiResult where
  | value (v : Int)
  | invalid_argument
  | out_of_range
deriving DecidableEq, Repr

/-- The C library `isspace` in the default locale. -/
def isspace (c : Char) : Bool :=
  c.toNat = 32 || (9 ≤ c.toNat && c.toNat ≤ 13)

/-- The library function `std::stoi(str)` (base 10, no position argument): skip
leading white space, read an optional sign and the longest run of decimal
digits, and ignore whatever follows; no digit gives `std::invalid_argument`, a
value outside `int` gives `std::out_of_range`. -/
def stoi (str : String) : StoiResult :=
  let s := str.toList.dropWhile isspace
  let negative := s.head? = some (Char.ofNat 45)
  let s := if s.head? = some (Char.ofNat 45) ∨ s.head? = some (Char.ofNat 43) then s.tail else s
  let digits := s.takeWhile Char.isDigit
  if digits.isEmpty then .invalid_argument
  else
    let magnitude : Int := digits.foldl (fun acc c => 10 * acc + ((c.toNat - 48 : Nat) : Int)) 0
    let v := if negative then -magnitude else magnitude
    if v < -2 ^ 31 ∨ 2 ^ 31 - 1 < v then .out_of_range else .value v

/-- A call of `std::stoi` inside `try { ... } catch (const std::invalid_argument&)
{ ...; return 1; }`: the handler turns `invalid_argument` into `return 1`;
`out_of_range` has no handler. -/
def stoi_try (arg : String) : Except Ending Int :=
  match stoi arg with
  | .value v => .ok v
  | .invalid_argument => .error (.returned 1)
  | .out_of_range => .error .terminated

/-- The table `dtype_map` of `main`. -/
def dtype_map : List (String × Int) :=
  [("fp64", DTYPE_DOUBLE), ("fp32", DTYPE_FLOAT), ("fp16", DTYPE_HALF), ("int8", DTYPE_INT8)]

/-- The configuration `matMulConfig` that `main` builds (lines 80-91). -/
def matMulConfig (M N K dtype : Int) : OpConfig :=
  { opType := .MATMUL, args := [M, N, K, 0, 1, 0, -1, dtype] }

/-- The part of `main` before the harness is created (lines 9-54): the
arguments are checked and parsed; the result is the configuration vector and
the iteration count, or the way the process ends. -/
def parseArgs (argv : List String) : Except Ending (OpConfig × Int) := do
  let argc := argv.length
  if argc ≠ 5 ∧ argc ≠ 6 then
    throw (.returned 1)
  let M ← stoi_try (argv.getD 1 "")
  let N ← stoi_try (argv.getD 2 "")
  let K ← stoi_try (argv.getD 3 "")
  let dtype_str := argv.getD 4 ""
  let dtype ←
    match dtype_map.lookup dtype_str with
    | none => throw (.returned 1)
    | some dtype => pure dtype
  let iterations ← if argc = 6 then stoi_try (argv.getD 5 "") else pure 2000
  pure (matMulConfig M N K dtype, iterations)

/-- Modelled from the spec: `Simulator::initOp` followed by
`Simulator::measureAllOp` (`simulator.h` and its implementation are absent from
the sources): one operator per configuration, dispatched on the kind, each
measured in the order given with the same repetition count.  A kind without an
implementation fails fatally; the spec gives no exit status for it and
`EXIT_FAILURE` stands in. -/
def Simulator.measureAllOp (env : Accel) (configVector : List OpConfig) (rounds : Int) :
    Proc Unit :=
  configVector.forM fun config =>
    match config.opType with
    | .MATMUL => MatMul.performance_measuring env config rounds
    | .CONV2D => exit EXIT_FAILURE

/-- What an execution of the program shows from outside. -/
structure MainRun where
  /-- Whether `new Simulator` was reached. -/
  simulator : Bool
  /-- The boundary calls made. -/
  trace : List Event
  ending : Ending

/-- The function `main(argc, argv)`; `argv` includes the program name. -/
def main (env : Accel) (argv : List String) : MainRun :=
  match parseArgs argv with
  | .error ending => { simulator := false, trace := [], ending := ending }
  | .ok (matMulConfig, iterations) =>
    match Simulator.measureAllOp env [matMulConfig] iterations [] with
    | .ok _ tr => { simulator := true, trace := tr, ending := .returned 0 }
    | .exit code tr => { simulator := true, trace := tr, ending := .exited code }

/-! ## Vocabulary for the statements

Names for the pieces of a trace and for the values the theorems speak about. -/

/-- The boundary calls of one loop iteration in which every call succeeds. -/
def iterEvents (dtype : Int) (f32 f16 : GemmCall) : List Event :=
  Event.cudaEventRecord ::
    ((if dtype = DTYPE_FLOAT then [Event.cublasGemmEx f32]
      else if dtype = DTYPE_HALF then [Event.cublasGemmEx f16] else []) ++
     [Event.cudaEventRecord, Event.cudaEventSynchronize, Event.cudaEventElapsedTime])

/-- The sum `t_i + ... + t_(i+n-1)` of timer readings, accumulated in loop order
onto `acc`. -/
def sumElapsed (t : Nat → ℚ) : Nat → Nat → ℚ → ℚ
  | 0, _, acc => acc
  | n + 1, i, acc => sumElapsed t n (i + 1) (acc + t i)

/-- The element width `dsize` (lines 29-31). -/
def dsizeOf (dtype : Int) : Nat := if dtype = DTYPE_HALF then sizeof_half else sizeof_float

/-- The boundary calls of lines 36-70 when every call succeeds, for buffers
of `a`, `b` and `c` bytes. -/
def setupEvents (a b c : Nat) : List Event :=
  [.cublasCreate, .cudaMalloc a, .cudaMalloc b, .cudaMalloc c, .malloc a, .malloc b, .malloc c,
    .cudaMemcpy a, .cudaMemcpy b, .cudaMemcpy c]

/-- The boundary calls of lines 280-286 when every call succeeds. -/
def releaseEvents : List Event :=
  [.cudaFree, .cudaFree, .cudaFree, .free, .free, .free, .cublasDestroy]

/-- The table the `if (TENSOR_OP == 0)` of line 103 selects, looked up. -/
def lookupAlgo (TENSOR_OP ALGO_ID : Int) : Option cublasGemmAlgo_t :=
  if TENSOR_OP = 0 then plainAlgo.lookup ALGO_ID else tensorAlgo.lookup ALGO_ID

/-- Lines 72-246 let the run go on: both transpose switches and the algorithm
switch leave without `exit`. -/
def Accepted (TRANSA TRANSB TENSOR_OP ALGO_ID : Int) : Prop :=
  (TRANSA = 0 ∨ TRANSA = 1) ∧ TRANSB = 0 ∧ (lookupAlgo TENSOR_OP ALGO_ID).isSome = true

instance (TRANSA TRANSB TENSOR_OP ALGO_ID : Int) :
    Decidable (Accepted TRANSA TRANSB TENSOR_OP ALGO_ID) := by
  unfold Accepted
  infer_instance

/-- The operation of the left operand after `switch (TRANSA)`. -/
def transaOf (TRANSA : Int) : cublasOperation_t :=
  if TRANSA = 0 then .CUBLAS_OP_N else .CUBLAS_OP_T

/-- The leading dimension of the left operand after `switch (TRANSA)`. -/
def ldaOf (TRANSA M K : Int) : Int := if TRANSA = 0 then M else K

/-- The boundary calls of lines 248-290 when every call succeeds. -/
def measureEvents (config : OpConfig) (n : Nat) (dtype : Int) (f32 f16 : GemmCall)
    (avg_time tflops : ℚ) : List Event :=
  Event.cudaEventCreate :: Event.cudaEventCreate ::
    ((List.replicate n (iterEvents dtype f32 f16)).flatten ++
      (releaseEvents ++ [Event.updatePfMap config avg_time tflops]))

/-- The three byte counts requested at lines 41-47 and copied at lines 68-70. -/
def bufferBytes (config : OpConfig) : Nat × Nat × Nat :=
  (sizeBytes (wrapInt32 (config.args.getD 0 0 * config.args.getD 2 0))
      (dsizeOf (config.args.getD 7 0)),
    sizeBytes (wrapInt32 (config.args.getD 2 0 * config.args.getD 1 0))
      (dsizeOf (config.args.getD 7 0)),
    sizeBytes (wrapInt32 (config.args.getD 0 0 * config.args.getD 1 0))
      (dsizeOf (config.args.getD 7 0)))

/-- The `cublasGemmEx` arguments a run with accepted selectors uses for element
type `ty`. -/
def gemmOf (config : OpConfig) (ty : cudaDataType) (algo : cublasGemmAlgo_t) : GemmCall :=
  gemmArgs ty (transaOf (config.args.getD 3 0)) .CUBLAS_OP_N
    (config.args.getD 0 0) (config.args.getD 1 0) (config.args.getD 2 0)
    (ldaOf (config.args.getD 3 0) (config.args.getD 0 0) (config.args.getD 2 0))
    (config.args.getD 2 0) (config.args.getD 0 0) algo

/-- The average `avg_time` after line 278, for timer readings `t`. -/
def averageOf (t : Nat → ℚ) (rounds : Int) : ℚ :=
  sumElapsed t rounds.toNat 0 0 / (rounds : ℚ)

/-- The whole trace of a run that returns: setup, the two events, `rounds` loop
iterations, release, report. -/
def completedTrace (config : OpConfig) (rounds : Int) (t : Nat → ℚ)
    (algo : cublasGemmAlgo_t) : List Event :=
  setupEvents (bufferBytes config).1 (bufferBytes config).2.1 (bufferBytes config).2.2 ++
    measureEvents config rounds.toNat (config.args.getD 7 0)
      (gemmOf config .CUDA_R_32F algo) (gemmOf config .CUDA_R_16F algo)
      (averageOf t rounds)
      (tflopsOf (config.args.getD 0 0) (config.args.getD 1 0) (config.args.getD 2 0)
        (averageOf t rounds))

/-- The byte count of a device allocation request. -/
def Event.deviceBytes : Event → Option Nat
  | .cudaMalloc bytes => some bytes
  | _ => none

/-- The byte count of a host allocation request. -/
def Event.hostBytes : Event → Option Nat
  | .malloc bytes => some bytes
  | _ => none

/-- The call `cudaEventElapsedTime`, which ends one timed loop iteration
(line 274). -/
def Event.isElapsed : Event → Bool
  | .cudaEventElapsedTime => true
  | _ => false

/-! ## Stepping through a process -/

section Step

variable {α β : Type}

@[simp]
theorem pure_apply (a : α) (tr : List Event) :
    (pure a : Proc α) tr = .ok a tr := rfl

@[simp]
theorem exit_apply (c : Int) (tr : List Event) :
    (exit c : Proc α) tr = .exit c tr := rfl

@[simp]
theorem call_apply (e : Event) (tr : List Event) :
    call e tr = .ok () (tr ++ [e]) := rfl

@[simp]
theorem CUDA_CALL_apply (env : Accel) (x : Event) (tr : List Event) :
    CUDA_CALL env x tr =
      if env.status tr.length then .ok () (tr ++ [x]) else .exit 1 (tr ++ [x]) := rfl

@[simp]
theorem CUBLAS_CALL_apply (env : Accel) (x : Event) (tr : List Event) :
    CUBLAS_CALL env x tr =
      if env.status tr.length then .ok () (tr ++ [x]) else .exit 1 (tr ++ [x, x]) := rfl

@[simp]
theorem pure_bind_apply (a : α) (f : α → Proc β) (tr : List Event) :
    (pure a >>= f) tr = f a tr := rfl

@[simp]
theorem exit_bind_apply (c : Int) (f : α → Proc β) (tr : List Event) :
    ((exit c : Proc α) >>= f) tr = .exit c tr := rfl

@[simp]
theorem call_bind_apply (e : Event) (f : Unit → Proc β) (tr : List Event) :
    (call e >>= f) tr = f () (tr ++ [e]) := rfl

@[simp]
theorem CUDA_CALL_bind_apply (env : Accel) (x : Event) (f : Unit → Proc β)
    (tr : List Event) :
    (CUDA_CALL env x >>= f) tr =
      if env.status tr.length then f () (tr ++ [x]) else .exit 1 (tr ++ [x]) := by
  show Proc.bind (CUDA_CALL env x) f tr = _
  unfold Proc.bind CUDA_CALL
  split_ifs <;> rfl

@[simp]
theorem CUBLAS_CALL_bind_apply (env : Accel) (x : Event) (f : Unit → Proc β)
    (tr : List Event) :
    (CUBLAS_CALL env x >>= f) tr =
      if env.status tr.length then f () (tr ++ [x]) else .exit 1 (tr ++ [x, x]) := by
  show Proc.bind (CUBLAS_CALL env x) f tr = _
  unfold Proc.bind CUBLAS_CALL
  split_ifs <;> rfl

@[simp]
theorem ite_bind_apply (c : Prop) [Decidable c] (p q : Proc α) (f : α → Proc β)
    (tr : List Event) :
    ((if c then p else q) >>= f) tr = if c then (p >>= f) tr else (q >>= f) tr := by
  split_ifs <;> rfl

@[simp]
theorem ite_apply_proc (c : Prop) [Decidable c] (p q : Proc α) (tr : List Event) :
    (if c then p else q) tr = if c then p tr else q tr := by
  split_ifs <;> rfl

theorem bind_apply (m : Proc α) (f : α → Proc β) (tr : List Event) :
    (m >>= f) tr =
      match m tr with
      | .ok a tr1 => f a tr1
      | .exit c tr1 => .exit c tr1 := rfl

theorem bind_ok_iff (m : Proc α) (f : α → Proc β) (tr tr2 : List Event) (b : β) :
    (m >>= f) tr = .ok b tr2 ↔ ∃ a tr1, m tr = .ok a tr1 ∧ f a tr1 = .ok b tr2 := by
  rw [bind_apply]
  cases h : m tr with
  | ok a tr1 =>
    constructor
    · intro hf
      exact ⟨a, tr1, rfl, hf⟩
    · rintro ⟨a1, tr3, heq, hf⟩
      cases heq
      exact hf
  | exit c tr1 => simp

theorem bind_of_ok {m : Proc α} {f : α → Proc β} {tr tr1 : List Event} {a : α}
    (h : m tr = .ok a tr1) : (m >>= f) tr = f a tr1 := by
  rw [bind_apply, h]

theorem bind_of_exit {m : Proc α} {f : α → Proc β} {tr tr1 : List Event} {c : Int}
    (h : m tr = .exit c tr1) : (m >>= f) tr = .exit c tr1 := by
  rw [bind_apply, h]

end Step

/-! ## Traces of the timed loop -/

theorem sumElapsed_eq (t : Nat → ℚ) (n i : Nat) (acc : ℚ) :
    sumElapsed t n i acc = acc + ((List.range n).map fun j => t (i + j)).sum := by
  induction n generalizing i acc with
  | zero => simp [sumElapsed]
  | succ n ih =>
    rw [sumElapsed, ih, List.range_succ_eq_map]
    simp only [List.map_cons, List.map_map, List.sum_cons, Nat.add_zero]
    have : ((fun j => t (i + 1 + j)) : Nat → ℚ) = (fun j => t (i + j)) ∘ Nat.succ := by
      funext j
      simp [Nat.add_assoc, Nat.add_comm 1 j]
    rw [this]
    ring

theorem loopBody_ok (env : Accel) (dtype : Int) (f32 f16 : GemmCall) (i : Nat) (acc v : ℚ)
    (tr tr1 : List Event) (h : loopBody env dtype f32 f16 i acc tr = .ok v tr1) :
    v = acc + env.elapsed i ∧ tr1 = tr ++ iterEvents dtype f32 f16 := by
  unfold loopBody at h
  unfold iterEvents
  simp at h
  split_ifs at h <;> simp_all

theorem timedLoop_ok (env : Accel) (dtype : Int) (f32 f16 : GemmCall) (n i : Nat) (acc v : ℚ)
    (tr tr1 : List Event) (h : timedLoop env dtype f32 f16 n i acc tr = .ok v tr1) :
    v = sumElapsed env.elapsed n i acc ∧
      tr1 = tr ++ (List.replicate n (iterEvents dtype f32 f16)).flatten := by
  induction n generalizing i acc tr with
  | zero =>
    simp only [timedLoop, pure_apply, Res.ok.injEq] at h
    simp [sumElapsed, h.1, h.2]
  | succ n ih =>
    rw [timedLoop, bind_ok_iff] at h
    obtain ⟨a, tr0, hbody, hrest⟩ := h
    obtain ⟨ha, htr0⟩ := loopBody_ok env dtype f32 f16 i acc a tr tr0 hbody
    obtain ⟨hv, htr1⟩ := ih (i + 1) a tr0 hrest
    subst ha htr0
    refine ⟨by rw [hv, sumElapsed], ?_⟩
    rw [htr1, List.replicate_succ, List.flatten_cons, List.append_assoc]


/-! ## The phases of `performance_measuring` -/

theorem allocate_cases (env : Accel) (M N K dtype : Int) :
    allocate env M N K dtype [] =
        .ok () (setupEvents (sizeBytes (wrapInt32 (M * K)) (dsizeOf dtype))
          (sizeBytes (wrapInt32 (K * N)) (dsizeOf dtype))
          (sizeBytes (wrapInt32 (M * N)) (dsizeOf dtype))) ∨
      ∃ tr, allocate env M N K dtype [] = .exit 1 tr ∧
        ∀ e ∈ tr, e.isGemm = false ∧ e.isUpdate = false := by
  unfold allocate setupEvents dsizeOf
  simp only [CUBLAS_CALL_bind_apply, CUDA_CALL_bind_apply, call_bind_apply, CUDA_CALL_apply,
    List.length_nil, List.nil_append, List.length_cons, List.length_append, List.cons_append]
  generalize sizeBytes (wrapInt32 (M * K)) _ = a
  generalize sizeBytes (wrapInt32 (K * N)) _ = b
  generalize sizeBytes (wrapInt32 (M * N)) _ = c
  split_ifs <;> simp [Event.isGemm, Event.isUpdate]

theorem allocate_allOk (env : Accel) (hok : ∀ i, env.status i = true) (M N K dtype : Int) :
    allocate env M N K dtype [] =
      .ok () (setupEvents (sizeBytes (wrapInt32 (M * K)) (dsizeOf dtype))
        (sizeBytes (wrapInt32 (K * N)) (dsizeOf dtype))
        (sizeBytes (wrapInt32 (M * N)) (dsizeOf dtype))) := by
  unfold allocate setupEvents dsizeOf
  simp only [CUBLAS_CALL_bind_apply, CUDA_CALL_bind_apply, call_bind_apply, CUDA_CALL_apply,
    List.length_nil, List.nil_append, List.length_cons, List.length_append, List.cons_append,
    hok, if_true]

theorem switchTransA_apply (TRANSA M K : Int) (tr : List Event) :
    switchTransA TRANSA M K tr =
      if TRANSA = 0 then .ok (.CUBLAS_OP_N, M) tr
      else if TRANSA = 1 then .ok (.CUBLAS_OP_T, K) tr else .exit 1 tr := by
  unfold switchTransA
  split_ifs <;> rfl

theorem switchTransB_apply (TRANSB K N : Int) (tr : List Event) :
    switchTransB TRANSB K N tr =
      if TRANSB = 0 then .ok (.CUBLAS_OP_N, K) tr else .exit 1 tr := by
  unfold switchTransB
  split_ifs <;> rfl

theorem selectAlgo_apply (TENSOR_OP ALGO_ID : Int) (tr : List Event) :
    selectAlgo TENSOR_OP ALGO_ID tr =
      match lookupAlgo TENSOR_OP ALGO_ID with
      | some algo => .ok algo tr
      | none => .exit 1 tr := by
  unfold selectAlgo lookupAlgo switchAlgo
  split_ifs
  · cases List.lookup ALGO_ID plainAlgo <;> rfl
  · cases List.lookup ALGO_ID tensorAlgo <;> rfl

theorem run_short (env : Accel) (config : OpConfig) (rounds : Int)
    (hlen : config.args.length < 8) :
    MatMul.performance_measuring env config rounds [] = .exit 0 [] := by
  unfold MatMul.performance_measuring
  simp only [ite_bind_apply, if_pos hlen, exit_bind_apply]

theorem run_rejected (env : Accel) (config : OpConfig) (rounds : Int)
    (hlen : 8 ≤ config.args.length)
    (hrej : ¬ Accepted (config.args.getD 3 0) (config.args.getD 4 0) (config.args.getD 5 0)
      (config.args.getD 6 0)) :
    MatMul.performance_measuring env config rounds [] =
      (allocate env (config.args.getD 0 0) (config.args.getD 1 0) (config.args.getD 2 0)
        (config.args.getD 7 0) >>= fun _ => (exit 1 : Proc Unit)) [] := by
  unfold MatMul.performance_measuring
  simp only [ite_bind_apply, if_neg (Nat.not_lt.mpr hlen), pure_bind_apply]
  rw [bind_apply, bind_apply]
  cases hal : allocate env (config.args.getD 0 0) (config.args.getD 1 0) (config.args.getD 2 0)
      (config.args.getD 7 0) [] with
  | exit c tr => rfl
  | ok u tr =>
    simp only [exit_apply]
    unfold Accepted at hrej
    rw [bind_apply, switchTransA_apply]
    by_cases ha0 : config.args.getD 3 0 = 0
    · rw [if_pos ha0]
      simp only
      rw [bind_apply, switchTransB_apply]
      by_cases hb0 : config.args.getD 4 0 = 0
      · rw [if_pos hb0]
        simp only
        rw [bind_apply, selectAlgo_apply]
        cases hl : lookupAlgo (config.args.getD 5 0) (config.args.getD 6 0) with
        | none => rfl
        | some algo => exact absurd ⟨Or.inl ha0, hb0, by rw [hl]; rfl⟩ hrej
      · rw [if_neg hb0]
    · rw [if_neg ha0]
      by_cases ha1 : config.args.getD 3 0 = 1
      · rw [if_pos ha1]
        simp only
        rw [bind_apply, switchTransB_apply]
        by_cases hb0 : config.args.getD 4 0 = 0
        · rw [if_pos hb0]
          simp only
          rw [bind_apply, selectAlgo_apply]
          cases hl : lookupAlgo (config.args.getD 5 0) (config.args.getD 6 0) with
          | none => rfl
          | some algo => exact absurd ⟨Or.inr ha1, hb0, by rw [hl]; rfl⟩ hrej
        · rw [if_neg hb0]
      · rw [if_neg ha1]

theorem run_accepted (env : Accel) (config : OpConfig) (rounds : Int)
    (hlen : 8 ≤ config.args.length) (algo : cublasGemmAlgo_t)
    (hA : config.args.getD 3 0 = 0 ∨ config.args.getD 3 0 = 1)
    (hB : config.args.getD 4 0 = 0)
    (hl : lookupAlgo (config.args.getD 5 0) (config.args.getD 6 0) = some algo) :
    MatMul.performance_measuring env config rounds [] =
      (allocate env (config.args.getD 0 0) (config.args.getD 1 0) (config.args.getD 2 0)
        (config.args.getD 7 0) >>= fun _ =>
        measure env config rounds (config.args.getD 0 0) (config.args.getD 1 0)
          (config.args.getD 2 0) (config.args.getD 7 0) (transaOf (config.args.getD 3 0))
          .CUBLAS_OP_N
          (ldaOf (config.args.getD 3 0) (config.args.getD 0 0) (config.args.getD 2 0))
          (config.args.getD 2 0) (config.args.getD 0 0) algo) [] := by
  unfold MatMul.performance_measuring
  simp only [ite_bind_apply, if_neg (Nat.not_lt.mpr hlen), pure_bind_apply]
  rw [bind_apply, bind_apply]
  cases hal : allocate env (config.args.getD 0 0) (config.args.getD 1 0) (config.args.getD 2 0)
      (config.args.getD 7 0) [] with
  | exit c tr => rfl
  | ok u tr =>
    simp only
    rw [bind_apply, switchTransA_apply]
    rcases hA with ha0 | ha1
    · rw [if_pos ha0]
      simp only
      rw [bind_apply, switchTransB_apply, if_pos hB]
      simp only
      rw [bind_apply, selectAlgo_apply, hl]
      simp only [transaOf, ldaOf, if_pos ha0]
    · have ha0 : ¬ config.args.getD 3 0 = 0 := by
        rw [ha1]
        decide
      rw [if_neg ha0, if_pos ha1]
      simp only
      rw [bind_apply, switchTransB_apply, if_pos hB]
      simp only
      rw [bind_apply, selectAlgo_apply, hl]
      simp only [transaOf, ldaOf, if_neg ha0]

theorem measure_ok (env : Accel) (config : OpConfig) (rounds : Int) (M N K dtype : Int)
    (transa transb : cublasOperation_t) (lda ldb ldc : Int) (algo : cublasGemmAlgo_t)
    (tr tr1 : List Event) (u : Unit)
    (h : measure env config rounds M N K dtype transa transb lda ldb ldc algo tr = .ok u tr1) :
    tr1 = tr ++ measureEvents config rounds.toNat dtype
      (gemmArgs .CUDA_R_32F transa transb M N K lda ldb ldc algo)
      (gemmArgs .CUDA_R_16F transa transb M N K lda ldb ldc algo)
      (sumElapsed env.elapsed rounds.toNat 0 0 / (rounds : ℚ))
      (tflopsOf M N K (sumElapsed env.elapsed rounds.toNat 0 0 / (rounds : ℚ))) := by
  unfold measure at h
  simp only [CUDA_CALL_bind_apply] at h
  split_ifs at h
  rw [bind_ok_iff] at h
  obtain ⟨v, tr2, hloop, h⟩ := h
  obtain ⟨hv, htr2⟩ := timedLoop_ok _ _ _ _ _ _ _ _ _ _ hloop
  simp only [CUDA_CALL_bind_apply, CUBLAS_CALL_bind_apply, call_bind_apply, call_apply] at h
  split_ifs at h
  simp only [Res.ok.injEq, true_and] at h
  rw [← h, htr2, hv]
  simp [measureEvents, releaseEvents]

theorem loopBody_allOk (env : Accel) (hok : ∀ i, env.status i = true) (dtype : Int)
    (f32 f16 : GemmCall) (i : Nat) (acc : ℚ) (tr : List Event) :
    loopBody env dtype f32 f16 i acc tr =
      .ok (acc + env.elapsed i) (tr ++ iterEvents dtype f32 f16) := by
  unfold loopBody iterEvents
  simp only [call_bind_apply, ite_bind_apply, CUDA_CALL_bind_apply, CUBLAS_CALL_bind_apply,
    pure_bind_apply, pure_apply, hok, if_true]
  split_ifs <;> simp [hok]

theorem timedLoop_allOk (env : Accel) (hok : ∀ i, env.status i = true) (dtype : Int)
    (f32 f16 : GemmCall) (n i : Nat) (acc : ℚ) (tr : List Event) :
    timedLoop env dtype f32 f16 n i acc tr =
      .ok (sumElapsed env.elapsed n i acc)
        (tr ++ (List.replicate n (iterEvents dtype f32 f16)).flatten) := by
  induction n generalizing i acc tr with
  | zero => simp [timedLoop, sumElapsed]
  | succ n ih =>
    rw [timedLoop, bind_of_ok (loopBody_allOk env hok dtype f32 f16 i acc tr), ih, sumElapsed,
      List.replicate_succ, List.flatten_cons, List.append_assoc]

theorem measure_allOk (env : Accel) (hok : ∀ i, env.status i = true) (config : OpConfig)
    (rounds : Int) (M N K dtype : Int) (transa transb : cublasOperation_t) (lda ldb ldc : Int)
    (algo : cublasGemmAlgo_t) (tr : List Event) :
    measure env config rounds M N K dtype transa transb lda ldb ldc algo tr =
      .ok () (tr ++ measureEvents config rounds.toNat dtype
        (gemmArgs .CUDA_R_32F transa transb M N K lda ldb ldc algo)
        (gemmArgs .CUDA_R_16F transa transb M N K lda ldb ldc algo)
        (sumElapsed env.elapsed rounds.toNat 0 0 / (rounds : ℚ))
        (tflopsOf M N K (sumElapsed env.elapsed rounds.toNat 0 0 / (rounds : ℚ)))) := by
  unfold measure
  simp only [CUDA_CALL_bind_apply, hok, if_true]
  rw [bind_of_ok (timedLoop_allOk env hok _ _ _ _ _ _ _)]
  simp only [CUDA_CALL_bind_apply, CUBLAS_CALL_bind_apply, call_bind_apply, call_apply, hok,
    if_true]
  simp [measureEvents, releaseEvents]

theorem run_allOk (env : Accel) (hok : ∀ i, env.status i = true) (config : OpConfig)
    (rounds : Int) (hlen : 8 ≤ config.args.length) (algo : cublasGemmAlgo_t)
    (hA : config.args.getD 3 0 = 0 ∨ config.args.getD 3 0 = 1)
    (hB : config.args.getD 4 0 = 0)
    (hl : lookupAlgo (config.args.getD 5 0) (config.args.getD 6 0) = some algo) :
    MatMul.performance_measuring env config rounds [] =
      .ok () (completedTrace config rounds env.elapsed algo) := by
  rw [run_accepted env config rounds hlen algo hA hB hl,
    bind_of_ok (allocate_allOk env hok _ _ _ _), measure_allOk env hok]
  rfl

theorem run_ok_inv (env : Accel) (config : OpConfig) (rounds : Int) (tr : List Event)
    (h : MatMul.performance_measuring env config rounds [] = .ok () tr) :
    8 ≤ config.args.length ∧
      (config.args.getD 3 0 = 0 ∨ config.args.getD 3 0 = 1) ∧ config.args.getD 4 0 = 0 ∧
      ∃ algo, lookupAlgo (config.args.getD 5 0) (config.args.getD 6 0) = some algo ∧
        tr = completedTrace config rounds env.elapsed algo := by
  by_cases hlen : config.args.length < 8
  · rw [run_short env config rounds hlen] at h
    cases h
  have hlen8 : 8 ≤ config.args.length := Nat.not_lt.mp hlen
  by_cases hacc : Accepted (config.args.getD 3 0) (config.args.getD 4 0) (config.args.getD 5 0)
      (config.args.getD 6 0)
  · obtain ⟨hA, hB, hsome⟩ := hacc
    obtain ⟨algo, hl⟩ := Option.isSome_iff_exists.mp hsome
    refine ⟨hlen8, hA, hB, algo, hl, ?_⟩
    rw [run_accepted env config rounds hlen8 algo hA hB hl, bind_ok_iff] at h
    obtain ⟨u, tr1, hal, hm⟩ := h
    have htr1 : tr1 = setupEvents (bufferBytes config).1 (bufferBytes config).2.1
        (bufferBytes config).2.2 := by
      rcases allocate_cases env (config.args.getD 0 0) (config.args.getD 1 0)
        (config.args.getD 2 0) (config.args.getD 7 0) with hc | ⟨tr2, hc, _⟩
      · rw [hc] at hal
        cases hal
        rfl
      · rw [hc] at hal
        cases hal
    rw [measure_ok _ _ _ _ _ _ _ _ _ _ _ _ _ _ _ _ hm, htr1]
    rfl
  · rw [run_rejected env config rounds hlen8 hacc, bind_apply] at h
    cases hal : allocate env (config.args.getD 0 0) (config.args.getD 1 0)
        (config.args.getD 2 0) (config.args.getD 7 0) [] with
    | ok u tr1 =>
      rw [hal] at h
      cases h
    | exit c tr1 =>
      rw [hal] at h
      cases h

theorem plainAlgo_lookup_none (id : Int) :
    plainAlgo.lookup id = none ↔ id < -1 ∨ 23 < id := by
  constructor
  · intro h
    by_contra hc
    push_neg at hc
    obtain ⟨h1, h2⟩ := hc
    interval_cases id <;> simp [plainAlgo, List.lookup] at h
  · intro h
    simp [plainAlgo]
    omega

theorem tensorAlgo_lookup_none (id : Int) :
    tensorAlgo.lookup id = none ↔ id < -1 ∨ 15 < id := by
  constructor
  · intro h
    by_contra hc
    push_neg at hc
    obtain ⟨h1, h2⟩ := hc
    interval_cases id <;> simp [tensorAlgo, List.lookup] at h
  · intro h
    simp [tensorAlgo]
    omega

theorem filter_flatten_replicate {α : Type} (p : α → Bool) (l : List α) (n : Nat)
    (h : l.filter p = []) : ((List.replicate n l).flatten).filter p = [] := by
  induction n with
  | zero => rfl
  | succ n ih => rw [List.replicate_succ, List.flatten_cons, List.filter_append, h, ih]; rfl

theorem filterMap_flatten_replicate {α β : Type} (g : α → Option β) (l : List α) (n : Nat)
    (h : l.filterMap g = []) : ((List.replicate n l).flatten).filterMap g = [] := by
  induction n with
  | zero => rfl
  | succ n ih => rw [List.replicate_succ, List.flatten_cons, List.filterMap_append, h, ih]; rfl

theorem countP_flatten_replicate {α : Type} (p : α → Bool) (l : List α) (n : Nat) :
    ((List.replicate n l).flatten).countP p = n * l.countP p := by
  induction n with
  | zero => simp
  | succ n ih =>
    rw [List.replicate_succ, List.flatten_cons, List.countP_append, ih]
    ring

theorem iterEvents_filter_update (dtype : Int) (f32 f16 : GemmCall) :
    (iterEvents dtype f32 f16).filter Event.isUpdate = [] := by
  unfold iterEvents
  split_ifs <;> rfl

theorem iterEvents_countP_gemm (dtype : Int) (f32 f16 : GemmCall) :
    (iterEvents dtype f32 f16).countP Event.isGemm =
      if dtype = DTYPE_FLOAT ∨ dtype = DTYPE_HALF then 1 else 0 := by
  unfold iterEvents
  split_ifs <;> first | rfl | simp_all

theorem completedTrace_filter_update (config : OpConfig) (rounds : Int) (t : Nat → ℚ)
    (algo : cublasGemmAlgo_t) :
    (completedTrace config rounds t algo).filter Event.isUpdate =
      [Event.updatePfMap config (averageOf t rounds)
        (tflopsOf (config.args.getD 0 0) (config.args.getD 1 0) (config.args.getD 2 0)
          (averageOf t rounds))] := by
  unfold completedTrace measureEvents
  rw [List.filter_append, List.filter_cons, List.filter_cons, List.filter_append,
    filter_flatten_replicate _ _ _ (iterEvents_filter_update _ _ _), List.filter_append]
  rfl

theorem completedTrace_countP_gemm (config : OpConfig) (rounds : Int) (t : Nat → ℚ)
    (algo : cublasGemmAlgo_t) :
    (completedTrace config rounds t algo).countP Event.isGemm =
      if config.args.getD 7 0 = DTYPE_FLOAT ∨ config.args.getD 7 0 = DTYPE_HALF
      then rounds.toNat else 0 := by
  unfold completedTrace measureEvents
  rw [List.countP_append, List.countP_cons, List.countP_cons, List.countP_append,
    countP_flatten_replicate, iterEvents_countP_gemm, List.countP_append]
  have h1 : ∀ a b c : Nat, (setupEvents a b c).countP Event.isGemm = 0 := fun _ _ _ => rfl
  have h2 : releaseEvents.countP Event.isGemm = 0 := rfl
  have h3 : Event.cudaEventCreate.isGemm = false := rfl
  have h4 : ∀ c a f, [Event.updatePfMap c a f].countP Event.isGemm = 0 := fun _ _ _ => rfl
  rw [h1, h2, h3, h4]
  split_ifs <;> first | contradiction | simp

theorem rejected_result (env : Accel) (config : OpConfig) (rounds : Int)
    (hlen : 8 ≤ config.args.length)
    (hrej : ¬ Accepted (config.args.getD 3 0) (config.args.getD 4 0) (config.args.getD 5 0)
      (config.args.getD 6 0)) :
    (MatMul.performance_measuring env config rounds []).code = some 1 ∧
      ∀ e ∈ (MatMul.performance_measuring env config rounds []).trace,
        e.isGemm = false ∧ e.isUpdate = false := by
  rw [run_rejected env config rounds hlen hrej, bind_apply]
  rcases allocate_cases env (config.args.getD 0 0) (config.args.getD 1 0)
    (config.args.getD 2 0) (config.args.getD 7 0) with hc | ⟨tr, hc, hq⟩
  · rw [hc]
    refine ⟨rfl, ?_⟩
    intro e he
    simp only [exit_apply, Res.trace, setupEvents, List.mem_cons, List.mem_singleton] at he
    rcases he with h | h | h | h | h | h | h | h | h | h | h <;> first | (subst h; exact ⟨rfl, rfl⟩) | cases h
  · rw [hc]
    exact ⟨rfl, hq⟩

/-- C6. A configuration with fewer than 8 parameters makes
`MatMul::performance_measuring` call `exit` before it crosses the accelerator
boundary at all: the trace of boundary calls is empty (no allocation, no copy,
no GEMM call, no report to the harness), whatever the accelerator would answer
and whatever the repetition count. -/
theorem C6_short_configuration_rejected (env : Accel) (config : OpConfig) (rounds : Int)
    (hlen : config.args.length < 8) :
    (MatMul.performance_measuring env config rounds []).code = some 0 ∧
      (MatMul.performance_measuring env config rounds []).trace = [] := by
  rw [run_short env config rounds hlen]
  exact ⟨rfl, rfl⟩

/-- C6 at a configuration with seven parameters. -/
theorem C6_short_configuration_rejected_witness :
    (MatMul.performance_measuring (Accel.allOk fun _ => 1) ⟨.MATMUL, [2, 2, 2, 0, 0, 0, -1]⟩
        2000 []).code = some 0 ∧
      (MatMul.performance_measuring (Accel.allOk fun _ => 1) ⟨.MATMUL, [2, 2, 2, 0, 0, 0, -1]⟩
        2000 []).trace = [] :=
  C6_short_configuration_rejected (Accel.allOk fun _ => 1) ⟨.MATMUL, [2, 2, 2, 0, 0, 0, -1]⟩
    2000 (by decide)

/-- C5. With at least 8 parameters, a transpose selector outside {0,1} or an
algorithm selector outside the range of its tensor-op mode (-1..23 when the
mode is 0, -1..15 otherwise) makes `MatMul::performance_measuring` end the
process (exit status 1) with no `cublasGemmEx` call issued and nothing reported
to the harness, whatever the accelerator answers. -/
theorem C5_bad_selector_rejected (env : Accel) (config : OpConfig) (rounds : Int)
    (hlen : 8 ≤ config.args.length)
    (hbad : (config.args.getD 3 0 ≠ 0 ∧ config.args.getD 3 0 ≠ 1) ∨
      (config.args.getD 4 0 ≠ 0 ∧ config.args.getD 4 0 ≠ 1) ∨
      (config.args.getD 5 0 = 0 ∧ (config.args.getD 6 0 < -1 ∨ 23 < config.args.getD 6 0)) ∨
      (config.args.getD 5 0 ≠ 0 ∧ (config.args.getD 6 0 < -1 ∨ 15 < config.args.getD 6 0))) :
    (MatMul.performance_measuring env config rounds []).code = some 1 ∧
      (∀ e ∈ (MatMul.performance_measuring env config rounds []).trace, e.isGemm = false) ∧
      (∀ e ∈ (MatMul.performance_measuring env config rounds []).trace, e.isUpdate = false) := by
  have hrej : ¬ Accepted (config.args.getD 3 0) (config.args.getD 4 0) (config.args.getD 5 0)
      (config.args.getD 6 0) := by
    rintro ⟨hA, hB, hsome⟩
    rcases hbad with h | h | h | h
    · rcases hA with hA | hA
      · exact h.1 hA
      · exact h.2 hA
    · exact h.1 hB
    · have hnone := (plainAlgo_lookup_none _).mpr h.2
      rw [lookupAlgo, if_pos h.1, hnone] at hsome
      cases hsome
    · have hnone := (tensorAlgo_lookup_none _).mpr h.2
      rw [lookupAlgo, if_neg h.1, hnone] at hsome
      cases hsome
  obtain ⟨hcode, hq⟩ := rejected_result env config rounds hlen hrej
  exact ⟨hcode, fun e he => (hq e he).1, fun e he => (hq e he).2⟩

/-- C5 at algorithm selector 24 in tensor-op mode 0. -/
theorem C5_bad_selector_rejected_witness :
    (MatMul.performance_measuring (Accel.allOk fun _ => 1)
        ⟨.MATMUL, [2, 2, 2, 0, 0, 0, 24, 0]⟩ 1 []).code = some 1 ∧
      (∀ e ∈ (MatMul.performance_measuring (Accel.allOk fun _ => 1)
        ⟨.MATMUL, [2, 2, 2, 0, 0, 0, 24, 0]⟩ 1 []).trace, e.isGemm = false) ∧
      (∀ e ∈ (MatMul.performance_measuring (Accel.allOk fun _ => 1)
        ⟨.MATMUL, [2, 2, 2, 0, 0, 0, 24, 0]⟩ 1 []).trace, e.isUpdate = false) :=
  C5_bad_selector_rejected (Accel.allOk fun _ => 1) ⟨.MATMUL, [2, 2, 2, 0, 0, 0, 24, 0]⟩ 1
    (by decide) (by decide)

/-- C4 (the code departs from the claim). With at least 8 parameters and
transposeB = 1 the run through `switch (TRANSB)` reaches `exit(1)`: the process is
ended with status 1 and no `cublasGemmEx` call is ever issued, whatever
transposeA and the accelerator are; the selector the claim says is accepted is
rejected. -/
theorem C4_transposeB_one_exits (env : Accel) (config : OpConfig) (rounds : Int)
    (hlen : 8 ≤ config.args.length) (hB : config.args.getD 4 0 = 1) :
    (MatMul.performance_measuring env config rounds []).code = some 1 ∧
      ∀ e ∈ (MatMul.performance_measuring env config rounds []).trace, e.isGemm = false := by
  have hrej : ¬ Accepted (config.args.getD 3 0) (config.args.getD 4 0) (config.args.getD 5 0)
      (config.args.getD 6 0) := by
    rintro ⟨_, hB0, _⟩
    rw [hB] at hB0
    exact absurd hB0 (by decide)
  obtain ⟨hcode, hq⟩ := rejected_result env config rounds hlen hrej
  exact ⟨hcode, fun e he => (hq e he).1⟩

/-- C4 at `[2, 2, 2, 0, 1, 0, -1, 0]` with one repetition. -/
theorem C4_transposeB_one_exits_witness :
    (MatMul.performance_measuring (Accel.allOk fun _ => 1)
        ⟨.MATMUL, [2, 2, 2, 0, 1, 0, -1, 0]⟩ 1 []).code = some 1 ∧
      ∀ e ∈ (MatMul.performance_measuring (Accel.allOk fun _ => 1)
        ⟨.MATMUL, [2, 2, 2, 0, 1, 0, -1, 0]⟩ 1 []).trace, e.isGemm = false :=
  C4_transposeB_one_exits (Accel.allOk fun _ => 1) ⟨.MATMUL, [2, 2, 2, 0, 1, 0, -1, 0]⟩ 1
    (by decide) (by decide)

/-- C3 (the code departs from the claim). The configuration `main` builds,
`[M, N, K, 0, 1, 0, -1, dtype]`, has transposeB = 1, so measuring it always ends
the process with status 1 and never reaches `updatePfMap`: no result entry is
recorded, for any dimensions, precision code, repetition count and
accelerator. -/
theorem C3_cli_configuration_never_recorded (env : Accel) (M N K dtype rounds : Int) :
    (MatMul.performance_measuring env (matMulConfig M N K dtype) rounds []).code = some 1 ∧
      ∀ e ∈ (MatMul.performance_measuring env (matMulConfig M N K dtype) rounds []).trace,
        e.isUpdate = false := by
  have hrej : ¬ Accepted ((matMulConfig M N K dtype).args.getD 3 0)
      ((matMulConfig M N K dtype).args.getD 4 0) ((matMulConfig M N K dtype).args.getD 5 0)
      ((matMulConfig M N K dtype).args.getD 6 0) := by
    rintro ⟨_, hB0, _⟩
    have h10 : (1 : Int) = 0 := hB0
    exact absurd h10 (by decide)
  obtain ⟨hcode, hq⟩ :=
    rejected_result env (matMulConfig M N K dtype) rounds (Nat.le_refl 8) hrej
  exact ⟨hcode, fun e he => (hq e he).2⟩

/-- C8, counterexample. Tensor-op mode 2 (outside {0,1}) with the default
algorithm selector: with every accelerator call succeeding the run is not
terminated; it returns normally, having issued one `cublasGemmEx` call and one
report. -/
theorem C8_counterexample :
    8 ≤ (OpConfig.mk .MATMUL [2, 2, 2, 0, 0, 2, -1, 0]).args.length ∧
      (OpConfig.mk .MATMUL [2, 2, 2, 0, 0, 2, -1, 0]).args.getD 5 0 ≠ 0 ∧
      (OpConfig.mk .MATMUL [2, 2, 2, 0, 0, 2, -1, 0]).args.getD 5 0 ≠ 1 ∧
      (MatMul.performance_measuring (Accel.allOk fun _ => 1)
        ⟨.MATMUL, [2, 2, 2, 0, 0, 2, -1, 0]⟩ 1 []).code = none ∧
      (MatMul.performance_measuring (Accel.allOk fun _ => 1)
        ⟨.MATMUL, [2, 2, 2, 0, 0, 2, -1, 0]⟩ 1 []).trace.countP Event.isGemm = 1 ∧
      (MatMul.performance_measuring (Accel.allOk fun _ => 1)
        ⟨.MATMUL, [2, 2, 2, 0, 0, 2, -1, 0]⟩ 1 []).trace.countP Event.isUpdate = 1 := by
  decide

/-- C8, amended. A tensor-op mode outside {0,1} is not rejected for itself: it
selects the tensor-op algorithm table, like mode 1.  With at least 8 parameters
and such a mode, (a) an algorithm selector outside -1..15 ends the process with
status 1 before any `cublasGemmEx` call and without a report, whatever the
accelerator answers; (b) with an algorithm selector in -1..15, transposeA in
{0,1}, transposeB = 0 and every accelerator call succeeding, the run is not
terminated: it returns normally. -/
theorem C8_tensor_op_mode_unchecked (env : Accel) (config : OpConfig) (rounds : Int)
    (hlen : 8 ≤ config.args.length)
    (hmode : config.args.getD 5 0 ≠ 0 ∧ config.args.getD 5 0 ≠ 1) :
    ((config.args.getD 6 0 < -1 ∨ 15 < config.args.getD 6 0) →
        (MatMul.performance_measuring env config rounds []).code = some 1 ∧
        ∀ e ∈ (MatMul.performance_measuring env config rounds []).trace,
          e.isGemm = false ∧ e.isUpdate = false) ∧
      ((∀ i, env.status i = true) →
        -1 ≤ config.args.getD 6 0 → config.args.getD 6 0 ≤ 15 →
        (config.args.getD 3 0 = 0 ∨ config.args.getD 3 0 = 1) → config.args.getD 4 0 = 0 →
        (MatMul.performance_measuring env config rounds []).code = none) := by
  constructor
  · intro hid
    apply rejected_result env config rounds hlen
    rintro ⟨_, _, hsome⟩
    rw [lookupAlgo, if_neg hmode.1, (tensorAlgo_lookup_none _).mpr hid] at hsome
    cases hsome
  · intro hok h1 h2 hA hB
    cases hl : List.lookup (config.args.getD 6 0) tensorAlgo with
    | none =>
      rcases (tensorAlgo_lookup_none _).mp hl with h | h
      · exact absurd h1 (not_le.mpr h)
      · exact absurd h2 (not_le.mpr h)
    | some algo =>
      have hl2 : lookupAlgo (config.args.getD 5 0) (config.args.getD 6 0) = some algo := by
        rw [lookupAlgo, if_neg hmode.1, hl]
      rw [run_allOk env hok config rounds hlen algo hA hB hl2]
      rfl

/-- C8, amended, at tensor-op mode 2 with algorithm selector 16. -/
theorem C8_tensor_op_mode_unchecked_witness :
    ((OpConfig.mk .MATMUL [2, 2, 2, 0, 0, 2, 16, 0]).args.getD 6 0 < -1 ∨
        15 < (OpConfig.mk .MATMUL [2, 2, 2, 0, 0, 2, 16, 0]).args.getD 6 0) ∧
      (MatMul.performance_measuring (Accel.allOk fun _ => 1)
        ⟨.MATMUL, [2, 2, 2, 0, 0, 2, 16, 0]⟩ 1 []).code = some 1 :=
  ⟨by decide,
    ((C8_tensor_op_mode_unchecked (Accel.allOk fun _ => 1) ⟨.MATMUL, [2, 2, 2, 0, 0, 2, 16, 0]⟩ 1
      (by decide) (by decide)).1 (by decide)).1⟩

theorem report_of_ok (env : Accel) (config : OpConfig) (rounds : Int) (tr : List Event)
    (c : OpConfig) (avg_time tflops : ℚ)
    (hdone : MatMul.performance_measuring env config rounds [] = .ok () tr)
    (hcall : Event.updatePfMap c avg_time tflops ∈ tr) :
    c = config ∧ avg_time = averageOf env.elapsed rounds ∧
      tflops = tflopsOf (config.args.getD 0 0) (config.args.getD 1 0) (config.args.getD 2 0)
        avg_time := by
  obtain ⟨_, _, _, algo, _, htr⟩ := run_ok_inv env config rounds tr hdone
  have hmem : Event.updatePfMap c avg_time tflops ∈
      (completedTrace config rounds env.elapsed algo).filter Event.isUpdate := by
    rw [List.mem_filter, ← htr]
    exact ⟨hcall, rfl⟩
  rw [completedTrace_filter_update, List.mem_singleton] at hmem
  injection hmem with h1 h2 h3
  exact ⟨h1, h2, by rw [h3, h2]⟩

theorem getD_set_seven (l : List Int) (code : Int) (i : Nat) (hi : i < 7) :
    (l.set 7 code).getD i 0 = l.getD i 0 := by
  rw [List.getD_eq_getElem?_getD, List.getD_eq_getElem?_getD,
    List.getElem?_set_ne (by omega)]

/-- C1. Whenever `MatMul::performance_measuring` returns (the report step is
reached) with repetitions >= 1, the throughput passed to `updatePfMap` is
`2*M*N*K / avg_time / 1e9` for the `avg_time` passed in the same call and the
parameters 0..2 of the configuration; and the value does not depend on the
precision code: a run on the configuration with parameter 7 replaced by any
other code that reports the same duration reports the same throughput.
(`double` arithmetic is exact rational arithmetic here.) -/
theorem C1_throughput_formula (env : Accel) (config : OpConfig) (rounds : Int)
    (tr : List Event) (c : OpConfig) (avg_time tflops : ℚ) (_hrounds : 1 ≤ rounds)
    (hdone : MatMul.performance_measuring env config rounds [] = .ok () tr)
    (hcall : Event.updatePfMap c avg_time tflops ∈ tr) :
    tflops = 2 * (config.args.getD 0 0 : ℚ) * (config.args.getD 1 0 : ℚ) *
        (config.args.getD 2 0 : ℚ) / avg_time / 1000000000 ∧
      ∀ (code : Int) (env2 : Accel) (rounds2 : Int) (tr2 : List Event) (c2 : OpConfig)
        (tflops2 : ℚ),
        MatMul.performance_measuring env2 ⟨config.opType, config.args.set 7 code⟩ rounds2 [] =
          .ok () tr2 →
        Event.updatePfMap c2 avg_time tflops2 ∈ tr2 → tflops2 = tflops := by
  obtain ⟨_, _, hf⟩ := report_of_ok env config rounds tr c avg_time tflops hdone hcall
  constructor
  · rw [hf, tflopsOf]
    ring
  · intro code env2 rounds2 tr2 c2 tflops2 hdone2 hcall2
    obtain ⟨_, _, hf2⟩ := report_of_ok env2 _ rounds2 tr2 c2 avg_time tflops2 hdone2 hcall2
    rw [hf2, hf]
    simp only [getD_set_seven _ _ 0 (by decide), getD_set_seven _ _ 1 (by decide),
      getD_set_seven _ _ 2 (by decide)]

theorem report_mem_completedTrace (config : OpConfig) (rounds : Int) (t : Nat → ℚ)
    (algo : cublasGemmAlgo_t) :
    Event.updatePfMap config (averageOf t rounds)
        (tflopsOf (config.args.getD 0 0) (config.args.getD 1 0) (config.args.getD 2 0)
          (averageOf t rounds)) ∈ completedTrace config rounds t algo := by
  have h := completedTrace_filter_update config rounds t algo
  have hmem : Event.updatePfMap config (averageOf t rounds)
      (tflopsOf (config.args.getD 0 0) (config.args.getD 1 0) (config.args.getD 2 0)
        (averageOf t rounds)) ∈ (completedTrace config rounds t algo).filter Event.isUpdate := by
    rw [h]
    exact List.mem_singleton.mpr rfl
  exact (List.mem_filter.mp hmem).1

/-- C1 at M = N = K = 2, single precision, one repetition, 1 ms elapsed: the
run returns, it reports the average 1 and the throughput 16 / 1e9, and that is
the value of the formula. -/
theorem C1_throughput_formula_witness :
    MatMul.performance_measuring (Accel.allOk fun _ => 1) ⟨.MATMUL, [2, 2, 2, 0, 0, 0, -1, 0]⟩ 1 [] =
        .ok () (completedTrace ⟨.MATMUL, [2, 2, 2, 0, 0, 0, -1, 0]⟩ 1 (fun _ => 1)
          .CUBLAS_GEMM_DEFAULT) ∧
      Event.updatePfMap ⟨.MATMUL, [2, 2, 2, 0, 0, 0, -1, 0]⟩ 1 (16 / 1000000000) ∈
        completedTrace ⟨.MATMUL, [2, 2, 2, 0, 0, 0, -1, 0]⟩ 1 (fun _ => 1)
          .CUBLAS_GEMM_DEFAULT ∧
      (16 / 1000000000 : ℚ) =
        2 * ((OpConfig.mk .MATMUL [2, 2, 2, 0, 0, 0, -1, 0]).args.getD 0 0 : ℚ) *
          ((OpConfig.mk .MATMUL [2, 2, 2, 0, 0, 0, -1, 0]).args.getD 1 0 : ℚ) *
          ((OpConfig.mk .MATMUL [2, 2, 2, 0, 0, 0, -1, 0]).args.getD 2 0 : ℚ) / 1 /
          1000000000 := by
  have hdone := run_allOk (Accel.allOk fun _ => 1) (fun _ => rfl)
    ⟨.MATMUL, [2, 2, 2, 0, 0, 0, -1, 0]⟩ 1 (by decide) .CUBLAS_GEMM_DEFAULT (by decide)
    (by decide) (by decide)
  have hcall : Event.updatePfMap ⟨.MATMUL, [2, 2, 2, 0, 0, 0, -1, 0]⟩ 1 (16 / 1000000000) ∈
      completedTrace ⟨.MATMUL, [2, 2, 2, 0, 0, 0, -1, 0]⟩ 1 (fun _ => 1)
        .CUBLAS_GEMM_DEFAULT := by
    have h := report_mem_completedTrace ⟨.MATMUL, [2, 2, 2, 0, 0, 0, -1, 0]⟩ 1 (fun _ => 1)
      .CUBLAS_GEMM_DEFAULT
    have ha : averageOf (fun _ => (1 : ℚ)) 1 = 1 := by
      norm_num [averageOf, sumElapsed]
    have hf : tflopsOf 2 2 2 1 = 16 / 1000000000 := by
      norm_num [tflopsOf]
    rw [ha] at h
    simp only [List.getD_cons_zero, List.getD_cons_succ] at h
    rw [hf] at h
    exact h
  exact ⟨hdone, hcall,
    (C1_throughput_formula (Accel.allOk fun _ => 1) ⟨.MATMUL, [2, 2, 2, 0, 0, 0, -1, 0]⟩ 1
      (completedTrace ⟨.MATMUL, [2, 2, 2, 0, 0, 0, -1, 0]⟩ 1 (fun _ => 1) .CUBLAS_GEMM_DEFAULT)
      ⟨.MATMUL, [2, 2, 2, 0, 0, 0, -1, 0]⟩ 1 (16 / 1000000000) (by decide) hdone hcall).1⟩

/-- C9. Whenever `MatMul::performance_measuring` returns with repetitions
R >= 1, the duration passed to `updatePfMap` is `(t_0 + ... + t_(R-1)) / R`,
where `t_i` is the time `cudaEventElapsedTime` reported in loop iteration `i`:
every iteration, the first included, enters once with weight one and nothing
else is added. -/
theorem C9_average_duration (env : Accel) (config : OpConfig) (rounds : Int)
    (tr : List Event) (c : OpConfig) (avg_time tflops : ℚ) (_hrounds : 1 ≤ rounds)
    (hdone : MatMul.performance_measuring env config rounds [] = .ok () tr)
    (hcall : Event.updatePfMap c avg_time tflops ∈ tr) :
    avg_time = ((List.range rounds.toNat).map env.elapsed).sum / (rounds : ℚ) := by
  obtain ⟨_, ha, _⟩ := report_of_ok env config rounds tr c avg_time tflops hdone hcall
  rw [ha, averageOf, sumElapsed_eq]
  simp

/-- C9 at two repetitions with timer readings 1 ms and 2 ms: the run returns
and reports the average 3/2 ms. -/
theorem C9_average_duration_witness :
    MatMul.performance_measuring (Accel.allOk fun i => (i : ℚ) + 1)
        ⟨.MATMUL, [2, 2, 2, 0, 0, 0, -1, 0]⟩ 2 [] =
        .ok () (completedTrace ⟨.MATMUL, [2, 2, 2, 0, 0, 0, -1, 0]⟩ 2 (fun i => (i : ℚ) + 1)
          .CUBLAS_GEMM_DEFAULT) ∧
      Event.updatePfMap ⟨.MATMUL, [2, 2, 2, 0, 0, 0, -1, 0]⟩ (3 / 2) (tflopsOf 2 2 2 (3 / 2)) ∈
        completedTrace ⟨.MATMUL, [2, 2, 2, 0, 0, 0, -1, 0]⟩ 2 (fun i => (i : ℚ) + 1)
          .CUBLAS_GEMM_DEFAULT ∧
      (3 / 2 : ℚ) = ((List.range (2 : Int).toNat).map
        (Accel.allOk fun i => (i : ℚ) + 1).elapsed).sum / ((2 : Int) : ℚ) := by
  have hdone := run_allOk (Accel.allOk fun i => (i : ℚ) + 1) (fun _ => rfl)
    ⟨.MATMUL, [2, 2, 2, 0, 0, 0, -1, 0]⟩ 2 (by decide) .CUBLAS_GEMM_DEFAULT (by decide)
    (by decide) (by decide)
  have hcall : Event.updatePfMap ⟨.MATMUL, [2, 2, 2, 0, 0, 0, -1, 0]⟩ (3 / 2)
      (tflopsOf 2 2 2 (3 / 2)) ∈
      completedTrace ⟨.MATMUL, [2, 2, 2, 0, 0, 0, -1, 0]⟩ 2 (fun i => (i : ℚ) + 1)
        .CUBLAS_GEMM_DEFAULT := by
    have h := report_mem_completedTrace ⟨.MATMUL, [2, 2, 2, 0, 0, 0, -1, 0]⟩ 2
      (fun i => (i : ℚ) + 1) .CUBLAS_GEMM_DEFAULT
    have ha : averageOf (fun i => (i : ℚ) + 1) 2 = 3 / 2 := by
      norm_num [averageOf, sumElapsed]
    rw [ha] at h
    simp only [List.getD_cons_zero, List.getD_cons_succ] at h
    exact h
  exact ⟨hdone, hcall,
    C9_average_duration (Accel.allOk fun i => (i : ℚ) + 1) ⟨.MATMUL, [2, 2, 2, 0, 0, 0, -1, 0]⟩ 2
      (completedTrace ⟨.MATMUL, [2, 2, 2, 0, 0, 0, -1, 0]⟩ 2 (fun i => (i : ℚ) + 1)
        .CUBLAS_GEMM_DEFAULT)
      ⟨.MATMUL, [2, 2, 2, 0, 0, 0, -1, 0]⟩ (3 / 2) (tflopsOf 2 2 2 (3 / 2)) (by decide) hdone
      hcall⟩

theorem sizeBytes_wrapInt32 (x : Int) (w : Nat) (h0 : 0 ≤ x) (h1 : x < 2 ^ 31)
    (hw : w = 4 ∨ w = 2) : sizeBytes (wrapInt32 x) w = x.toNat * w := by
  have hwrap : wrapInt32 x = x := by
    unfold wrapInt32
    omega
  rw [hwrap]
  unfold sizeBytes
  rcases hw with rfl | rfl <;> omega

theorem iterEvents_deviceBytes (dtype : Int) (f32 f16 : GemmCall) :
    (iterEvents dtype f32 f16).filterMap Event.deviceBytes = [] := by
  unfold iterEvents
  split_ifs <;> rfl

theorem iterEvents_hostBytes (dtype : Int) (f32 f16 : GemmCall) :
    (iterEvents dtype f32 f16).filterMap Event.hostBytes = [] := by
  unfold iterEvents
  split_ifs <;> rfl

theorem completedTrace_deviceBytes (config : OpConfig) (rounds : Int) (t : Nat → ℚ)
    (algo : cublasGemmAlgo_t) :
    (completedTrace config rounds t algo).filterMap Event.deviceBytes =
      [(bufferBytes config).1, (bufferBytes config).2.1, (bufferBytes config).2.2] := by
  unfold completedTrace measureEvents
  rw [List.filterMap_append, List.filterMap_cons, List.filterMap_cons, List.filterMap_append,
    filterMap_flatten_replicate _ _ _ (iterEvents_deviceBytes _ _ _), List.filterMap_append]
  rfl

theorem completedTrace_hostBytes (config : OpConfig) (rounds : Int) (t : Nat → ℚ)
    (algo : cublasGemmAlgo_t) :
    (completedTrace config rounds t algo).filterMap Event.hostBytes =
      [(bufferBytes config).1, (bufferBytes config).2.1, (bufferBytes config).2.2] := by
  unfold completedTrace measureEvents
  rw [List.filterMap_append, List.filterMap_cons, List.filterMap_cons, List.filterMap_append,
    filterMap_flatten_replicate _ _ _ (iterEvents_hostBytes _ _ _), List.filterMap_append]
  rfl

theorem requests_allOk (env : Accel) (hok : ∀ i, env.status i = true) (config : OpConfig)
    (rounds : Int) (hlen : 8 ≤ config.args.length) :
    (MatMul.performance_measuring env config rounds []).trace.filterMap Event.deviceBytes =
        [(bufferBytes config).1, (bufferBytes config).2.1, (bufferBytes config).2.2] ∧
      (MatMul.performance_measuring env config rounds []).trace.filterMap Event.hostBytes =
        [(bufferBytes config).1, (bufferBytes config).2.1, (bufferBytes config).2.2] := by
  by_cases hacc : Accepted (config.args.getD 3 0) (config.args.getD 4 0) (config.args.getD 5 0)
      (config.args.getD 6 0)
  · obtain ⟨hA, hB, hsome⟩ := hacc
    obtain ⟨algo, hl⟩ := Option.isSome_iff_exists.mp hsome
    rw [run_allOk env hok config rounds hlen algo hA hB hl]
    exact ⟨completedTrace_deviceBytes _ _ _ _, completedTrace_hostBytes _ _ _ _⟩
  · rw [run_rejected env config rounds hlen hacc, bind_of_ok (allocate_allOk env hok _ _ _ _)]
    exact ⟨rfl, rfl⟩

/-- C10, counterexample. M = K = 65536, N = 1, single precision: all three
dimensions are positive 32-bit integers, yet the `int` product `M * K` wraps to
0 and the first device (and host) request is for 0 bytes, not for
65536 * 65536 * 4 bytes. -/
theorem C10_counterexample :
    (MatMul.performance_measuring (Accel.allOk fun _ => 1)
        ⟨.MATMUL, [65536, 1, 65536, 0, 0, 0, -1, 0]⟩ 1 []).trace.filterMap Event.deviceBytes =
        [0, 65536 * 1 * 4, 65536 * 1 * 4] ∧
      (MatMul.performance_measuring (Accel.allOk fun _ => 1)
        ⟨.MATMUL, [65536, 1, 65536, 0, 0, 0, -1, 0]⟩ 1 []).trace.filterMap Event.hostBytes =
        [0, 65536 * 1 * 4, 65536 * 1 * 4] ∧
      (0 : Nat) ≠ 65536 * 65536 * 4 ∧ (65536 : Int) < 2 ^ 31 := by
  decide

/-- C10, amended. For single precision (w = 4) and half precision (w = 2) and
M, N, K >= 1 whose products M*K, K*N and M*N are each below 2^31, the byte
counts `MatMul::performance_measuring` requests for the three device buffers,
and for the three host buffers, are exactly M*K*w, K*N*w and M*N*w (every
accelerator call succeeding, whatever the selectors and the repetition count). -/
theorem C10_buffer_bytes (env : Accel) (hok : ∀ i, env.status i = true) (config : OpConfig)
    (rounds : Int) (w : Nat) (hlen : 8 ≤ config.args.length)
    (hw : (config.args.getD 7 0 = DTYPE_FLOAT ∧ w = 4) ∨
      (config.args.getD 7 0 = DTYPE_HALF ∧ w = 2))
    (hM : 1 ≤ config.args.getD 0 0) (hN : 1 ≤ config.args.getD 1 0)
    (hK : 1 ≤ config.args.getD 2 0)
    (hMK : config.args.getD 0 0 * config.args.getD 2 0 < 2 ^ 31)
    (hKN : config.args.getD 2 0 * config.args.getD 1 0 < 2 ^ 31)
    (hMN : config.args.getD 0 0 * config.args.getD 1 0 < 2 ^ 31) :
    (MatMul.performance_measuring env config rounds []).trace.filterMap Event.deviceBytes =
        [(config.args.getD 0 0 * config.args.getD 2 0).toNat * w,
          (config.args.getD 2 0 * config.args.getD 1 0).toNat * w,
          (config.args.getD 0 0 * config.args.getD 1 0).toNat * w] ∧
      (MatMul.performance_measuring env config rounds []).trace.filterMap Event.hostBytes =
        [(config.args.getD 0 0 * config.args.getD 2 0).toNat * w,
          (config.args.getD 2 0 * config.args.getD 1 0).toNat * w,
          (config.args.getD 0 0 * config.args.getD 1 0).toNat * w] := by
  have hd : dsizeOf (config.args.getD 7 0) = w ∧ (w = 4 ∨ w = 2) := by
    unfold dsizeOf
    rcases hw with ⟨h, rfl⟩ | ⟨h, rfl⟩
    · rw [h]
      exact ⟨rfl, Or.inl rfl⟩
    · rw [h]
      exact ⟨rfl, Or.inr rfl⟩
  have hb : bufferBytes config =
      ((config.args.getD 0 0 * config.args.getD 2 0).toNat * w,
        (config.args.getD 2 0 * config.args.getD 1 0).toNat * w,
        (config.args.getD 0 0 * config.args.getD 1 0).toNat * w) := by
    unfold bufferBytes
    rw [hd.1, sizeBytes_wrapInt32 _ w (by positivity) hMK hd.2,
      sizeBytes_wrapInt32 _ w (by positivity) hKN hd.2,
      sizeBytes_wrapInt32 _ w (by positivity) hMN hd.2]
  have h := requests_allOk env hok config rounds hlen
  rw [hb] at h
  exact h

/-- C10, amended, at M = 3, N = 5, K = 7 in half precision. -/
theorem C10_buffer_bytes_witness :
    (MatMul.performance_measuring (Accel.allOk fun _ => 1)
        ⟨.MATMUL, [3, 5, 7, 0, 0, 0, -1, 1]⟩ 1 []).trace.filterMap Event.deviceBytes =
        [(3 * 7 : Int).toNat * 2, (7 * 5 : Int).toNat * 2, (3 * 5 : Int).toNat * 2] ∧
      (MatMul.performance_measuring (Accel.allOk fun _ => 1)
        ⟨.MATMUL, [3, 5, 7, 0, 0, 0, -1, 1]⟩ 1 []).trace.filterMap Event.hostBytes =
        [(3 * 7 : Int).toNat * 2, (7 * 5 : Int).toNat * 2, (3 * 5 : Int).toNat * 2] :=
  C10_buffer_bytes (Accel.allOk fun _ => 1) (fun _ => rfl) ⟨.MATMUL, [3, 5, 7, 0, 0, 0, -1, 1]⟩ 1 2
    (by decide) (Or.inr ⟨by decide, rfl⟩) (by decide) (by decide) (by decide) (by decide)
    (by decide) (by decide)

theorem iterEvents_countP_elapsed (dtype : Int) (f32 f16 : GemmCall) :
    (iterEvents dtype f32 f16).countP Event.isElapsed = 1 := by
  unfold iterEvents
  split_ifs <;> rfl

theorem completedTrace_countP_elapsed (config : OpConfig) (rounds : Int) (t : Nat → ℚ)
    (algo : cublasGemmAlgo_t) :
    (completedTrace config rounds t algo).countP Event.isElapsed = rounds.toNat := by
  unfold completedTrace measureEvents
  rw [List.countP_append, List.countP_cons, List.countP_cons, List.countP_append,
    countP_flatten_replicate, iterEvents_countP_elapsed, List.countP_append]
  have h1 : ∀ a b c : Nat, (setupEvents a b c).countP Event.isElapsed = 0 := fun _ _ _ => rfl
  have h2 : releaseEvents.countP Event.isElapsed = 0 := rfl
  have h3 : Event.cudaEventCreate.isElapsed = false := rfl
  have h4 : ∀ c a f, [Event.updatePfMap c a f].countP Event.isElapsed = 0 := fun _ _ _ => rfl
  rw [h1, h2, h3, h4]
  simp

theorem completedTrace_eq (config : OpConfig) (rounds : Int) (t : Nat → ℚ)
    (algo : cublasGemmAlgo_t) :
    completedTrace config rounds t algo =
      setupEvents (bufferBytes config).1 (bufferBytes config).2.1 (bufferBytes config).2.2 ++
        [Event.cudaEventCreate, Event.cudaEventCreate] ++
        (List.replicate rounds.toNat (iterEvents (config.args.getD 7 0)
          (gemmOf config .CUDA_R_32F algo) (gemmOf config .CUDA_R_16F algo))).flatten ++
        (releaseEvents ++ [Event.updatePfMap config (averageOf t rounds)
          (tflopsOf (config.args.getD 0 0) (config.args.getD 1 0) (config.args.getD 2 0)
            (averageOf t rounds))]) := by
  unfold completedTrace measureEvents
  simp only [List.append_assoc, List.cons_append, List.nil_append]

/-- C2, counterexample. Double precision (code 2) with in-range selectors and
one repetition: every accelerator call succeeds and the run returns, but the
timed loop issues no `cublasGemmEx` call, not one. -/
theorem C2_counterexample :
    8 ≤ (OpConfig.mk .MATMUL [2, 2, 2, 0, 0, 0, -1, 2]).args.length ∧
      (OpConfig.mk .MATMUL [2, 2, 2, 0, 0, 0, -1, 2]).args.getD 7 0 = DTYPE_DOUBLE ∧
      (MatMul.performance_measuring (Accel.allOk fun _ => 1)
        ⟨.MATMUL, [2, 2, 2, 0, 0, 0, -1, 2]⟩ 1 []).code = none ∧
      (MatMul.performance_measuring (Accel.allOk fun _ => 1)
        ⟨.MATMUL, [2, 2, 2, 0, 0, 0, -1, 2]⟩ 1 []).trace.countP Event.isGemm = 0 ∧
      (MatMul.performance_measuring (Accel.allOk fun _ => 1)
        ⟨.MATMUL, [2, 2, 2, 0, 0, 0, -1, 2]⟩ 1 []).trace.countP Event.isGemm ≠ 1 := by
  decide

/-- C2, amended. With at least 8 parameters, transposeA in {0,1},
transposeB = 0, an algorithm selector in the range of its tensor-op mode and
every accelerator call succeeding, a measurement with R repetitions returns,
and its trace is exactly: the ten setup calls, the two `cudaEventCreate` calls,
R copies of the calls of one timed iteration, the seven release calls and the
report.  So the loop runs exactly R timed iterations (the trace holds exactly R
`cudaEventElapsedTime` calls).  For single and half precision one iteration
holds exactly one `cublasGemmEx` call (R calls in all); for every other
precision code (double and int8 included) it holds none (0 calls in all). -/
theorem C2_gemm_calls_per_iteration (env : Accel) (hok : ∀ i, env.status i = true)
    (config : OpConfig) (R : Nat) (hlen : 8 ≤ config.args.length)
    (hA : config.args.getD 3 0 = 0 ∨ config.args.getD 3 0 = 1)
    (hB : config.args.getD 4 0 = 0)
    (hsel : (config.args.getD 5 0 = 0 ∧ -1 ≤ config.args.getD 6 0 ∧ config.args.getD 6 0 ≤ 23) ∨
      (config.args.getD 5 0 ≠ 0 ∧ -1 ≤ config.args.getD 6 0 ∧ config.args.getD 6 0 ≤ 15)) :
    (MatMul.performance_measuring env config R []).code = none ∧
      (∃ algo, lookupAlgo (config.args.getD 5 0) (config.args.getD 6 0) = some algo ∧
        (MatMul.performance_measuring env config R []).trace =
          setupEvents (bufferBytes config).1 (bufferBytes config).2.1 (bufferBytes config).2.2 ++
            [Event.cudaEventCreate, Event.cudaEventCreate] ++
            (List.replicate R (iterEvents (config.args.getD 7 0)
              (gemmOf config .CUDA_R_32F algo) (gemmOf config .CUDA_R_16F algo))).flatten ++
            (releaseEvents ++ [Event.updatePfMap config (averageOf env.elapsed R)
              (tflopsOf (config.args.getD 0 0) (config.args.getD 1 0) (config.args.getD 2 0)
                (averageOf env.elapsed R))])) ∧
      (∀ f32 f16, (iterEvents (config.args.getD 7 0) f32 f16).countP Event.isElapsed = 1 ∧
        (iterEvents (config.args.getD 7 0) f32 f16).countP Event.isGemm =
          if config.args.getD 7 0 = DTYPE_FLOAT ∨ config.args.getD 7 0 = DTYPE_HALF
          then 1 else 0) ∧
      (MatMul.performance_measuring env config R []).trace.countP Event.isElapsed = R ∧
      (MatMul.performance_measuring env config R []).trace.countP Event.isGemm =
        if config.args.getD 7 0 = DTYPE_FLOAT ∨ config.args.getD 7 0 = DTYPE_HALF
        then R else 0 := by
  have hsome : ∃ algo, lookupAlgo (config.args.getD 5 0) (config.args.getD 6 0) = some algo := by
    rcases hsel with ⟨ht, h1, h2⟩ | ⟨ht, h1, h2⟩
    · cases hl : List.lookup (config.args.getD 6 0) plainAlgo with
      | none =>
        rcases (plainAlgo_lookup_none _).mp hl with h | h
        · exact absurd h1 (not_le.mpr h)
        · exact absurd h2 (not_le.mpr h)
      | some algo => exact ⟨algo, by rw [lookupAlgo, if_pos ht, hl]⟩
    · cases hl : List.lookup (config.args.getD 6 0) tensorAlgo with
      | none =>
        rcases (tensorAlgo_lookup_none _).mp hl with h | h
        · exact absurd h1 (not_le.mpr h)
        · exact absurd h2 (not_le.mpr h)
      | some algo => exact ⟨algo, by rw [lookupAlgo, if_neg ht, hl]⟩
  obtain ⟨algo, hl⟩ := hsome
  rw [run_allOk env hok config R hlen algo hA hB hl]
  refine ⟨rfl, ⟨algo, hl, ?_⟩, ?_, ?_, ?_⟩
  · have h := completedTrace_eq config R env.elapsed algo
    rw [Int.toNat_ofNat] at h
    exact h
  · intro f32 f16
    exact ⟨iterEvents_countP_elapsed _ _ _, iterEvents_countP_gemm _ _ _⟩
  · have h := completedTrace_countP_elapsed config R env.elapsed algo
    rw [Int.toNat_ofNat] at h
    exact h
  · have h := completedTrace_countP_gemm config R env.elapsed algo
    rw [Int.toNat_ofNat] at h
    exact h

/-- C2, amended, at three repetitions in half precision with tensor-op
algorithm 15 and transposeA = 1: three timed iterations, three GEMM calls. -/
theorem C2_gemm_calls_per_iteration_witness :
    (MatMul.performance_measuring (Accel.allOk fun _ => 1)
        ⟨.MATMUL, [2, 2, 2, 1, 0, 1, 15, 1]⟩ (3 : Nat) []).trace.countP Event.isElapsed = 3 ∧
      (MatMul.performance_measuring (Accel.allOk fun _ => 1)
        ⟨.MATMUL, [2, 2, 2, 1, 0, 1, 15, 1]⟩ (3 : Nat) []).trace.countP Event.isGemm =
      if (OpConfig.mk .MATMUL [2, 2, 2, 1, 0, 1, 15, 1]).args.getD 7 0 = DTYPE_FLOAT ∨
          (OpConfig.mk .MATMUL [2, 2, 2, 1, 0, 1, 15, 1]).args.getD 7 0 = DTYPE_HALF
      then 3 else 0 :=
  (C2_gemm_calls_per_iteration (Accel.allOk fun _ => 1) (fun _ => rfl)
    ⟨.MATMUL, [2, 2, 2, 1, 0, 1, 15, 1]⟩ 3 (by decide) (by decide) (by decide)
    (by decide)).2.2.2

/-- C7 (the code departs from the claim). For `gemm 12abc 2 2 fp32 1` the
argument `12abc` is read as 12: `main` does not return 1 before the harness, it
creates the simulator and device work is performed.  For
`gemm 99999999999 2 2 fp32` the exception `std::out_of_range` of `std::stoi` has
no handler: the process is terminated by `std::terminate`, `main` does not
return 1. -/
theorem C7_malformed_numbers_not_rejected :
    stoi "12abc" = .value 12 ∧
      (main (Accel.allOk fun _ => 1) ["gemm", "12abc", "2", "2", "fp32", "1"]).simulator = true ∧
      (main (Accel.allOk fun _ => 1) ["gemm", "12abc", "2", "2", "fp32", "1"]).trace ≠ [] ∧
      (main (Accel.allOk fun _ => 1) ["gemm", "12abc", "2", "2", "fp32", "1"]).ending ≠
        .returned 1 ∧
      stoi "99999999999" = .out_of_range ∧
      (main (Accel.allOk fun _ => 1) ["gemm", "99999999999", "2", "2", "fp32"]).ending =
        .terminated := by
  decide

end GemmBench
